import Mathlib

/-!
# Verification of the FaceIDSystem attendance manager

Shallow embedding of `src/attendance_manager.py` (class `AttendanceManager`)
and the configuration constants of `src/config.py`.

Modelling conventions:
* A clock time of day (Python `'%H:%M:%S'` strings) is a number of seconds
  since midnight (a `Nat`, `< 86400` for any string `strftime` can produce).
* The daily CSV file is a `List Record`, one entry per data row, in file
  order.  An empty `Check-out Time` field (read back as NaN by pandas) is
  `Option.none`.
* The `checked_in_employees` Python dict is an association list
  `List (String × CacheEntry)`; a fresh key is inserted so that it shadows
  nothing (keys stay unique along every reachable execution), and
  `dict.pop` removes every entry with the key.
* The loosely typed result dicts (`{'success': ..., 'message': ...}`) are
  inductive result types; the `since` time embedded in the
  "already checked in today at {time}" message is carried as a field.
-/

/-- Configuration from `src/config.py`: `WORK_START_TIME` (parsed by
`_get_status` as minutes via `'%H:%M'`) and `LATE_THRESHOLD_MINUTES`. -/
structure Config where
  workStartMin : Nat
  lateThreshold : Nat
deriving Repr, DecidableEq

/-- `WORK_START_TIME = '09:00'`, `LATE_THRESHOLD_MINUTES = 10`. -/
def defaultConfig : Config := ⟨9 * 60, 10⟩

/-- One data row of the daily attendance CSV:
`Employee ID, Name, Check-in Time, Check-out Time, Status, Comments`. -/
structure Record where
  employeeId : String
  name : String
  checkIn : Nat
  checkOut : Option Nat
  status : String
  comments : String
deriving Repr, DecidableEq

/-- One value of the `checked_in_employees` dict:
`{'name': ..., 'check_in_time': ...}`. -/
structure CacheEntry where
  name : String
  checkInTime : Nat
deriving Repr, DecidableEq

/-- The mutable state of an `AttendanceManager` restricted to one target
day: the contents of `self.today_file` and the `checked_in_employees`
cache. -/
structure ManagerState where
  ledger : List Record
  cache : List (String × CacheEntry)
deriving Repr, DecidableEq

/-- The state right after `_initialize_daily_file` on a fresh day:
an empty ledger, and `_get_checked_in_employees` returns `{}`. -/
def initState : ManagerState := ⟨[], []⟩

/-- Python dict lookup `d[k]` / `k in d` on the association list. -/
def lookupC (eid : String) : List (String × CacheEntry) → Option CacheEntry
  | [] => none
  | p :: rest => if p.1 = eid then some p.2 else lookupC eid rest

/-- Python `dict.pop(k, None)`: drop every binding of the key. -/
def popC (eid : String) (l : List (String × CacheEntry)) :
    List (String × CacheEntry) :=
  l.filter (fun p => !(p.1 = eid : Bool))

/-- `AttendanceManager._get_status` (lines 66-79): the check-in time and
the work start are parsed to datetimes on the same default date and the
difference is taken in fractional minutes
(`(check_in_dt - work_start_dt).total_seconds() / 60`); we keep the exact
difference in seconds (`Int`), so the branch tests `time_diff <= 0` and
`time_diff <= late_threshold` become the equivalent integer comparisons
against `0` and `late_threshold * 60`. -/
def getStatus (cfg : Config) (checkInSec : Nat) : String :=
  let timeDiffSec : Int := (checkInSec : Int) - (cfg.workStartMin : Int) * 60
  if timeDiffSec ≤ 0 then "On Time"
  else if timeDiffSec ≤ (cfg.lateThreshold : Int) * 60 then "Grace Period"
  else "Late"

/-- The comment string prepared by `record_check_in` (lines 104-109). -/
def checkInComments (cfg : Config) (status : String) : String :=
  if status = "Late" then
    "Late by more than " ++ toString cfg.lateThreshold ++ " minutes"
  else if status = "Grace Period" then
    "Within " ++ toString cfg.lateThreshold ++ " minute grace period"
  else ""

/-- Result dict of `record_check_in`. -/
inductive CheckInResult where
  /-- `{'success': False, 'message': f'{name} has already checked in today
  at {...["check_in_time"]}.'}` -/
  | alreadyCheckedIn (name : String) (since : Nat)
  /-- `{'success': True, 'employee_id': ..., 'name': ..., 'time': ...,
  'status': ..., 'comments': ...}` -/
  | ok (employeeId name : String) (time : Nat) (status comments : String)
deriving Repr, DecidableEq

/-- `AttendanceManager.record_check_in` (lines 81-129), called when the
wall clock reads `nowSec` (`current_time.strftime('%H:%M:%S')`). -/
def record_check_in (cfg : Config) (st : ManagerState)
    (employeeId name : String) (nowSec : Nat) :
    CheckInResult × ManagerState :=
  match lookupC employeeId st.cache with
  | some entry => (.alreadyCheckedIn name entry.checkInTime, st)
  | none =>
    let status := getStatus cfg nowSec
    let comments := checkInComments cfg status
    let newRec : Record := ⟨employeeId, name, nowSec, none, status, comments⟩
    (.ok employeeId name nowSec status comments,
      ⟨st.ledger ++ [newRec], (employeeId, ⟨name, nowSec⟩) :: st.cache⟩)

/-- The pandas row mask of `record_check_out` (line 155):
`(df['Employee ID'] == employee_id) & (df['Check-out Time'].isna())`. -/
def isOpenFor (employeeId : String) (r : Record) : Bool :=
  r.employeeId = employeeId && r.checkOut.isNone

/-- The duration computation of `record_check_out` (lines 166-175): both
times parsed on the same nominal date; if check-out reads earlier than
check-in, one day (86400 s) is added before subtracting. -/
def computeDuration (checkInSec checkOutSec : Nat) : Int :=
  if checkOutSec < checkInSec then
    (checkOutSec : Int) + 86400 - (checkInSec : Int)
  else (checkOutSec : Int) - (checkInSec : Int)

/-- Zero-pad to two digits, as in Python time formatting. -/
def pad2 (n : Nat) : String :=
  if n < 10 then "0" ++ toString n else toString n

/-- `str(timedelta)` for a non-negative whole number of seconds:
`H:MM:SS` (hours unpadded). -/
def durationStr (d : Nat) : String :=
  toString (d / 3600) ++ ":" ++ pad2 (d % 3600 / 60) ++ ":" ++ pad2 (d % 60)

/-- The comments rewrite of `record_check_out` (lines 177-182): the
comments of the FIRST masked row decide the format, and the result is
assigned to every masked row. -/
def checkOutComments (firstComments : String) (durSec : Nat) : String :=
  if firstComments = "" then "Work duration: " ++ durationStr durSec
  else firstComments ++ "; Work duration: " ++ durationStr durSec

/-- The pandas assignment `df.loc[mask, ...] = ...` applied to one row:
rows matching the mask get the check-out time and the new comments, other
rows are untouched. -/
def closeRow (employeeId : String) (nowSec : Nat) (newComments : String)
    (r : Record) : Record :=
  if isOpenFor employeeId r then
    { r with checkOut := some nowSec, comments := newComments }
  else r

/-- Result dict of `record_check_out`. -/
inductive CheckOutResult where
  /-- `{'success': False, 'message': f'{name} has not checked in today.'}` -/
  | notCheckedIn (name : String)
  /-- `{'success': False, 'message': f'No active check-in found for
  {name}.'}` (cache said checked-in but no open row in the file) -/
  | noActiveCheckIn (name : String)
  /-- `{'success': True, 'employee_id': ..., 'name': ..., 'time': ...,
  'duration': ...}` -/
  | ok (employeeId name : String) (time : Nat) (duration : Int)
deriving Repr, DecidableEq

/-- `AttendanceManager.record_check_out` (lines 131-196), called when the
wall clock reads `nowSec`.  Mirrors the source: cache pre-check, mask over
the CSV, `mask.any()` guard, duration from the first masked row
(`.iloc[0]`), check-out time and comments written to ALL masked rows,
cache `pop`.  (The configuration is not read on this path.) -/
def record_check_out (st : ManagerState)
    (employeeId name : String) (nowSec : Nat) :
    CheckOutResult × ManagerState :=
  match lookupC employeeId st.cache with
  | none => (.notCheckedIn name, st)
  | some _ =>
    match st.ledger.find? (isOpenFor employeeId) with
    | none => (.noActiveCheckIn name, st)
    | some firstRow =>
      let duration := computeDuration firstRow.checkIn nowSec
      let newComments := checkOutComments firstRow.comments duration.toNat
      let newLedger := st.ledger.map (closeRow employeeId nowSec newComments)
      (.ok employeeId name nowSec duration,
        ⟨newLedger, popC employeeId st.cache⟩)

/-- One externally triggered operation on the manager. -/
inductive Op where
  | checkIn (employeeId name : String) (time : Nat)
  | checkOut (employeeId name : String) (time : Nat)
deriving Repr, DecidableEq

/-- The state transition of one operation (the result dict discarded). -/
def step (cfg : Config) (st : ManagerState) : Op → ManagerState
  | .checkIn e n t => (record_check_in cfg st e n t).2
  | .checkOut e n t => (record_check_out st e n t).2

/-- Run a sequence of operations from a state. -/
def run (cfg : Config) (st : ManagerState) : List Op → ManagerState
  | [] => st
  | op :: ops => run cfg (step cfg st op) ops

/-- Number of open records (check-in set, check-out unset) a ledger holds
for an employee. -/
def openCount (employeeId : String) (l : List Record) : Nat :=
  (l.filter (isOpenFor employeeId)).length


/-- Consistency invariant tying the `checked_in_employees` cache to the
day's ledger: every cached employee has an open record whose check-in
time (and name) the cache mirrors, every employee with an open record is
cached, and no employee has two open records. -/
def Consistent (st : ManagerState) : Prop :=
  (∀ eid, openCount eid st.ledger ≤ 1) ∧
  (∀ eid entry, lookupC eid st.cache = some entry →
    ∃ r ∈ st.ledger, isOpenFor eid r = true ∧
      r.checkIn = entry.checkInTime ∧ r.name = entry.name) ∧
  (∀ eid, (∃ r ∈ st.ledger, isOpenFor eid r = true) →
    (lookupC eid st.cache).isSome)

theorem isOpenFor_iff (eid : String) (r : Record) :
    isOpenFor eid r = true ↔ r.employeeId = eid ∧ r.checkOut = none := by
  simp [isOpenFor, Bool.and_eq_true, Option.isNone_iff_eq_none]

theorem lookupC_cons (e : String) (p : String × CacheEntry)
    (l : List (String × CacheEntry)) :
    lookupC e (p :: l) = if p.1 = e then some p.2 else lookupC e l := rfl

theorem lookupC_popC (eid e : String) (l : List (String × CacheEntry)) :
    lookupC e (popC eid l) = if e = eid then none else lookupC e l := by
  induction l with
  | nil => simp [popC, lookupC]
  | cons p rest ih =>
    simp only [popC, List.filter_cons] at ih ⊢
    by_cases hp : p.1 = eid
    · rw [if_neg (by simp [hp])]
      rw [ih]
      rcases eq_or_ne e eid with rfl | hne
      · simp
      · rw [if_neg hne, if_neg hne, lookupC_cons,
          if_neg (fun h : p.1 = e => hne (h.symm.trans hp))]
    · rw [if_pos (by simp [hp])]
      rw [lookupC_cons]
      rcases eq_or_ne p.1 e with hpe | hpe
      · rw [if_pos hpe, if_neg (fun h : e = eid => hp (hpe.trans h)),
          lookupC_cons, if_pos hpe]
      · rw [if_neg hpe, ih]
        rcases eq_or_ne e eid with rfl | hne
        · simp
        · rw [if_neg hne, if_neg hne, lookupC_cons, if_neg hpe]

theorem openCount_append (eid : String) (l : List Record) (r : Record) :
    openCount eid (l ++ [r]) =
      openCount eid l + (if isOpenFor eid r then 1 else 0) := by
  simp only [openCount, List.filter_append, List.length_append]
  by_cases h : isOpenFor eid r <;> simp [h, List.filter_cons]

theorem openCount_eq_zero_iff (eid : String) (l : List Record) :
    openCount eid l = 0 ↔ ∀ r ∈ l, ¬ isOpenFor eid r = true := by
  simp only [openCount, List.length_eq_zero, List.filter_eq_nil_iff]

theorem closeRow_of_open (eid : String) (t : Nat) (c : String) (r : Record)
    (h : isOpenFor eid r = true) :
    closeRow eid t c r = { r with checkOut := some t, comments := c } := by
  simp [closeRow, h]

theorem closeRow_of_not_open (eid : String) (t : Nat) (c : String)
    (r : Record) (h : ¬ isOpenFor eid r = true) : closeRow eid t c r = r := by
  simp [closeRow, h]

theorem openCount_closeRow_self (eid : String) (t : Nat) (c : String)
    (l : List Record) :
    openCount eid (l.map (closeRow eid t c)) = 0 := by
  rw [openCount_eq_zero_iff]
  intro r hr
  rcases List.mem_map.1 hr with ⟨a, -, rfl⟩
  by_cases ha : isOpenFor eid a = true
  · rw [closeRow_of_open eid t c a ha]
    simp [isOpenFor]
  · rw [closeRow_of_not_open eid t c a ha]
    exact ha

theorem closeRow_ne (eid e : String) (t : Nat) (c : String) (r : Record)
    (hne : e ≠ eid) :
    isOpenFor e (closeRow eid t c r) = isOpenFor e r := by
  by_cases ha : isOpenFor eid r = true
  · have hid : r.employeeId = eid := ((isOpenFor_iff eid r).1 ha).1
    rw [closeRow_of_open eid t c r ha]
    simp [isOpenFor, hid, Ne.symm hne]
  · rw [closeRow_of_not_open eid t c r ha]

theorem openCount_closeRow_other (eid e : String) (t : Nat) (c : String)
    (l : List Record) (hne : e ≠ eid) :
    openCount e (l.map (closeRow eid t c)) = openCount e l := by
  induction l with
  | nil => rfl
  | cons a l ih =>
    simp only [List.map_cons, openCount, List.filter_cons] at ih ⊢
    rw [closeRow_ne eid e t c a hne]
    by_cases ha : isOpenFor e a <;> simp [ha, ih]

theorem consistent_initState : Consistent initState := by
  refine ⟨fun eid => ?_, fun eid entry h => ?_, fun eid h => ?_⟩
  · simp [openCount, initState]
  · simp [lookupC, initState] at h
  · simp [initState] at h

theorem consistent_check_in (cfg : Config) (st : ManagerState)
    (eid name : String) (t : Nat) (h : Consistent st) :
    Consistent (record_check_in cfg st eid name t).2 := by
  obtain ⟨h1, h2, h3⟩ := h
  unfold record_check_in
  cases hl : lookupC eid st.cache with
  | some entry => exact ⟨h1, h2, h3⟩
  | none =>
    simp only
    have hop0 : openCount eid st.ledger = 0 := by
      rw [openCount_eq_zero_iff]
      intro r hr hopen
      have hs := h3 eid ⟨r, hr, hopen⟩
      rw [hl] at hs
      simp at hs
    refine ⟨fun e => ?_, fun e entry he => ?_, fun e he => ?_⟩
    · rw [openCount_append]
      rcases eq_or_ne e eid with rfl | hne
      · rw [hop0]
        split <;> omega
      · have : isOpenFor e ⟨eid, name, t, none, getStatus cfg t,
            checkInComments cfg (getStatus cfg t)⟩ = false := by
          simp [isOpenFor, Ne.symm hne]
        rw [this]
        simpa using h1 e
    · rw [lookupC_cons] at he
      rcases eq_or_ne eid e with rfl | hne
      · rw [if_pos rfl] at he
        cases he
        refine ⟨⟨eid, name, t, none, getStatus cfg t,
          checkInComments cfg (getStatus cfg t)⟩,
          List.mem_append_right _ (List.mem_singleton.2 rfl), ?_, rfl, rfl⟩
        simp [isOpenFor]
      · rw [if_neg hne] at he
        obtain ⟨r, hr, hro, hfields⟩ := h2 e entry he
        exact ⟨r, List.mem_append_left _ hr, hro, hfields⟩
    · rw [lookupC_cons]
      rcases eq_or_ne eid e with rfl | hne
      · simp
      · rw [if_neg hne]
        obtain ⟨r, hr, hro⟩ := he
        rcases List.mem_append.1 hr with hrl | hrnew
        · exact h3 e ⟨r, hrl, hro⟩
        · rw [List.mem_singleton.1 hrnew] at hro
          rw [isOpenFor_iff] at hro
          exact absurd hro.1 hne

theorem consistent_check_out (st : ManagerState) (eid name : String)
    (t : Nat) (h : Consistent st) :
    Consistent (record_check_out st eid name t).2 := by
  obtain ⟨h1, h2, h3⟩ := h
  unfold record_check_out
  cases hl : lookupC eid st.cache with
  | none => exact ⟨h1, h2, h3⟩
  | some entry =>
    cases hf : st.ledger.find? (isOpenFor eid) with
    | none => exact ⟨h1, h2, h3⟩
    | some firstRow =>
      simp only
      set c := checkOutComments firstRow.comments
        (computeDuration firstRow.checkIn t).toNat with hc
      refine ⟨fun e => ?_, fun e entry2 he => ?_, fun e he => ?_⟩
      · rcases eq_or_ne e eid with rfl | hne
        · rw [openCount_closeRow_self]
          omega
        · rw [openCount_closeRow_other eid e t c st.ledger hne]
          exact h1 e
      · rw [lookupC_popC] at he
        rcases eq_or_ne e eid with rfl | hne
        · rw [if_pos rfl] at he
          cases he
        · rw [if_neg hne] at he
          obtain ⟨r, hr, hro, hfields⟩ := h2 e entry2 he
          have hnot : ¬ isOpenFor eid r = true := by
            intro hh
            exact hne (((isOpenFor_iff e r).1 hro).1 ▸
              ((isOpenFor_iff eid r).1 hh).1)
          refine ⟨r, ?_, hro, hfields⟩
          have : closeRow eid t c r = r := closeRow_of_not_open eid t c r hnot
          exact this ▸ List.mem_map_of_mem (closeRow eid t c) hr
      · obtain ⟨r2, hr2, hro2⟩ := he
        rcases List.mem_map.1 hr2 with ⟨a, ha, rfl⟩
        have hne : e ≠ eid := by
          intro heq
          subst heq
          have h0 := openCount_closeRow_self e t c st.ledger
          rw [openCount_eq_zero_iff] at h0
          exact h0 _ (List.mem_map_of_mem (closeRow e t c) ha) hro2
        rw [closeRow_ne eid e t c a hne] at hro2
        rw [lookupC_popC, if_neg hne]
        exact h3 e ⟨a, ha, hro2⟩

theorem consistent_step (cfg : Config) (st : ManagerState) (op : Op)
    (h : Consistent st) : Consistent (step cfg st op) := by
  cases op with
  | checkIn e n t => exact consistent_check_in cfg st e n t h
  | checkOut e n t => exact consistent_check_out st e n t h

theorem consistent_run (cfg : Config) (st : ManagerState) (ops : List Op)
    (h : Consistent st) : Consistent (run cfg st ops) := by
  induction ops generalizing st with
  | nil => exact h
  | cons op ops ih => exact ih _ (consistent_step cfg st op h)

/-- C1: For every sequence of `record_check_in` and `record_check_out`
operations starting from an empty daily ledger, the ledger contains at
most one open record (check-in time set, check-out time unset) per
employee id at every point in the sequence (i.e. after every prefix of
operations). -/
theorem at_most_one_open_record (cfg : Config) (ops : List Op)
    (eid : String) :
    openCount eid (run cfg initState ops).ledger ≤ 1 :=
  (consistent_run cfg initState ops consistent_initState).1 eid

/-- C2: the status assigned to a check-in at time `t` is determined by
`delta = minutes(t) - minutes(work_start_time)` (in exact fractional
minutes, as `_get_status` divides a second count by 60): `On Time` when
`delta ≤ 0`, `Grace Period` when `0 < delta ≤ late_threshold`, `Late`
when `delta > late_threshold`; with the configured work start 09:00 and
threshold 10 the four boundary examples hold. -/
theorem status_boundaries (cfg : Config) (t : Nat) :
    (getStatus cfg t = "On Time" ↔
      (t : ℚ) / 60 - (cfg.workStartMin : ℚ) ≤ 0) ∧
    (getStatus cfg t = "Grace Period" ↔
      (0 < (t : ℚ) / 60 - (cfg.workStartMin : ℚ) ∧
        (t : ℚ) / 60 - (cfg.workStartMin : ℚ) ≤ (cfg.lateThreshold : ℚ))) ∧
    (getStatus cfg t = "Late" ↔
      (cfg.lateThreshold : ℚ) < (t : ℚ) / 60 - (cfg.workStartMin : ℚ)) ∧
    getStatus defaultConfig 32400 = "On Time" ∧
    getStatus defaultConfig 33000 = "Grace Period" ∧
    getStatus defaultConfig 33001 = "Late" ∧
    getStatus defaultConfig 32100 = "On Time" := by
  have h60 : (0 : ℚ) < 60 := by norm_num
  have key0 : (t : ℚ) / 60 - (cfg.workStartMin : ℚ) ≤ 0 ↔
      ((t : Int) - (cfg.workStartMin : Int) * 60 ≤ 0) := by
    rw [sub_nonpos, div_le_iff₀ h60, sub_nonpos]
    exact_mod_cast Iff.rfl
  have key1 : (t : ℚ) / 60 - (cfg.workStartMin : ℚ) ≤ (cfg.lateThreshold : ℚ)
      ↔ ((t : Int) - (cfg.workStartMin : Int) * 60 ≤
          (cfg.lateThreshold : Int) * 60) := by
    rw [sub_le_iff_le_add, div_le_iff₀ h60, sub_le_iff_le_add]
    constructor
    · intro h
      have h2 : (t : Int) ≤ ((cfg.lateThreshold : Int) +
          (cfg.workStartMin : Int)) * 60 := by exact_mod_cast h
      linarith
    · intro h
      have h2 : (t : ℚ) ≤ ((cfg.lateThreshold : ℚ) +
          (cfg.workStartMin : ℚ)) * 60 := by
        have h3 : (t : Int) ≤ ((cfg.lateThreshold : Int) +
            (cfg.workStartMin : Int)) * 60 := by linarith
        exact_mod_cast h3
      linarith
  have hthr : (0 : ℚ) ≤ (cfg.lateThreshold : ℚ) := by positivity
  refine ⟨?_, ?_, ?_, by decide, by decide, by decide, by decide⟩
  · unfold getStatus
    by_cases hA : (t : Int) - (cfg.workStartMin : Int) * 60 ≤ 0
    · simp only [hA, if_pos]
      simpa [key0] using hA
    · rw [if_neg hA]
      have hA2 : ¬ ((t : ℚ) / 60 - (cfg.workStartMin : ℚ) ≤ 0) :=
        fun h => hA (key0.1 h)
      split
      · exact ⟨fun h => absurd h (by decide), fun h => absurd h hA2⟩
      · exact ⟨fun h => absurd h (by decide), fun h => absurd h hA2⟩
  · unfold getStatus
    by_cases hA : (t : Int) - (cfg.workStartMin : Int) * 60 ≤ 0
    · rw [if_pos hA]
      have hA2 : (t : ℚ) / 60 - (cfg.workStartMin : ℚ) ≤ 0 := key0.2 hA
      exact ⟨fun h => absurd h (by decide), fun h => absurd hA2
        (not_le.2 h.1)⟩
    · rw [if_neg hA]
      have hA2 : 0 < (t : ℚ) / 60 - (cfg.workStartMin : ℚ) :=
        lt_of_not_le (fun h => hA (key0.1 h))
      by_cases hB : (t : Int) - (cfg.workStartMin : Int) * 60 ≤
          (cfg.lateThreshold : Int) * 60
      · rw [if_pos hB]
        exact ⟨fun _ => ⟨hA2, key1.2 hB⟩, fun _ => rfl⟩
      · rw [if_neg hB]
        exact ⟨fun h => absurd h (by decide),
          fun h => absurd (key1.1 h.2) hB⟩
  · unfold getStatus
    by_cases hA : (t : Int) - (cfg.workStartMin : Int) * 60 ≤ 0
    · rw [if_pos hA]
      have hA2 : (t : ℚ) / 60 - (cfg.workStartMin : ℚ) ≤ 0 := key0.2 hA
      exact ⟨fun h => absurd h (by decide),
        fun h => absurd (lt_of_le_of_lt hthr h) (not_lt.2 hA2)⟩
    · rw [if_neg hA]
      by_cases hB : (t : Int) - (cfg.workStartMin : Int) * 60 ≤
          (cfg.lateThreshold : Int) * 60
      · rw [if_pos hB]
        exact ⟨fun h => absurd h (by decide),
          fun h => absurd (key1.2 hB) (not_le.2 h)⟩
      · rw [if_neg hB]
        exact ⟨fun _ => lt_of_not_le (fun h => hB (key1.1 h)), fun _ => rfl⟩

/-- C4: when the check-out clock reading is earlier than the check-in
reading on the same nominal date, 24 hours are added to the check-out
before subtracting, so the computed duration is never negative
(check-in times produced by `strftime('%H:%M:%S')` are below 86400 s);
in particular check-in 23:50:00 with check-out 00:10:00 gives 20 minutes. -/
theorem overnight_duration (checkInSec checkOutSec : Nat)
    (hin : checkInSec < 86400) :
    0 ≤ computeDuration checkInSec checkOutSec ∧
    (checkOutSec < checkInSec →
      computeDuration checkInSec checkOutSec =
        (checkOutSec : Int) + 86400 - (checkInSec : Int)) ∧
    computeDuration 85800 600 = 20 * 60 ∧
    durationStr (computeDuration 85800 600).toNat = "0:20:00" := by
  refine ⟨?_, fun h => by rw [computeDuration, if_pos h], by decide, by decide⟩
  unfold computeDuration
  split <;> omega

/-- Witness for `overnight_duration` at the claim's concrete inputs. -/
theorem overnight_duration_witness :
    85800 < 86400 ∧
    (0 ≤ computeDuration 85800 600 ∧
      (600 < 85800 →
        computeDuration 85800 600 = (600 : Int) + 86400 - (85800 : Int)) ∧
      computeDuration 85800 600 = 20 * 60 ∧
      durationStr (computeDuration 85800 600).toNat = "0:20:00") :=
  ⟨by norm_num, overnight_duration 85800 600 (by norm_num)⟩

/-- `'success': True` discriminator of a check-out result dict. -/
def CheckOutResult.isSuccess : CheckOutResult → Bool
  | .ok _ _ _ _ => true
  | _ => false

/-- C3: if an employee already has an open (not checked-out) record in
the day's ledger, a further `record_check_in` in the same session fails
with the already-checked-in outcome reporting the original check-in
time, and the state (ledger and cache) is exactly as before the call.
Stated over every state reachable from the empty daily ledger. -/
theorem duplicate_check_in_rejected (cfg : Config) (ops : List Op)
    (eid name : String) (t : Nat)
    (hopen : ∃ r ∈ (run cfg initState ops).ledger,
      isOpenFor eid r = true) :
    ∃ r ∈ (run cfg initState ops).ledger, isOpenFor eid r = true ∧
      record_check_in cfg (run cfg initState ops) eid name t =
        (.alreadyCheckedIn name r.checkIn, run cfg initState ops) := by
  obtain ⟨h1, h2, h3⟩ := consistent_run cfg initState ops consistent_initState
  have hs := h3 eid hopen
  cases hl : lookupC eid (run cfg initState ops).cache with
  | none =>
    rw [hl] at hs
    simp at hs
  | some entry =>
    obtain ⟨r, hr, hro, hci, hn⟩ := h2 eid entry hl
    refine ⟨r, hr, hro, ?_⟩
    unfold record_check_in
    rw [hl, hci]

/-- Witness for `duplicate_check_in_rejected`: after one check-in of
`E1`, a second check-in the same day is rejected with the original
time 32400 and does not change the state. -/
theorem duplicate_check_in_rejected_witness :
    (∃ r ∈ (run defaultConfig initState
        [Op.checkIn "E1" "Alice" 32400]).ledger,
      isOpenFor "E1" r = true) ∧
    (∃ r ∈ (run defaultConfig initState
        [Op.checkIn "E1" "Alice" 32400]).ledger,
      isOpenFor "E1" r = true ∧
      record_check_in defaultConfig
          (run defaultConfig initState [Op.checkIn "E1" "Alice" 32400])
          "E1" "Alice" 33000 =
        (.alreadyCheckedIn "Alice" r.checkIn,
          run defaultConfig initState [Op.checkIn "E1" "Alice" 32400])) :=
  ⟨by decide, duplicate_check_in_rejected defaultConfig
    [Op.checkIn "E1" "Alice" 32400] "E1" "Alice" 33000 (by decide)⟩

/-- C5: if the day's ledger holds no open record for an employee
(in particular when the employee never checked in that day),
`record_check_out` fails with the not-checked-in outcome and leaves the
state unchanged.  Stated over every state reachable from the empty
daily ledger. -/
theorem check_out_without_open_record (cfg : Config) (ops : List Op)
    (eid name : String) (t : Nat)
    (hnone : ∀ r ∈ (run cfg initState ops).ledger,
      ¬ isOpenFor eid r = true) :
    record_check_out (run cfg initState ops) eid name t =
      (.notCheckedIn name, run cfg initState ops) := by
  obtain ⟨h1, h2, h3⟩ := consistent_run cfg initState ops consistent_initState
  cases hl : lookupC eid (run cfg initState ops).cache with
  | none =>
    unfold record_check_out
    rw [hl]
  | some entry =>
    obtain ⟨r, hr, hro, -⟩ := h2 eid entry hl
    exact absurd hro (hnone r hr)

/-- Witness for `check_out_without_open_record`: check-out on a fresh
empty day fails with the not-checked-in outcome. -/
theorem check_out_without_open_record_witness :
    (∀ r ∈ (run defaultConfig initState []).ledger,
      ¬ isOpenFor "E1" r = true) ∧
    record_check_out (run defaultConfig initState []) "E1" "Alice" 600 =
      (.notCheckedIn "Alice", run defaultConfig initState []) :=
  ⟨by decide, check_out_without_open_record defaultConfig [] "E1" "Alice"
    600 (by decide)⟩

/-- C9: `record_check_out` only ever writes the `Check-out Time` and
`Comments` columns: for every record of the ledger (whether or not the
call succeeds), the `Employee ID`, `Name`, `Check-in Time` and `Status`
fields after the call are pointwise those before it; in particular the
status assigned at check-in is never revised by the check-out path. -/
theorem check_out_frame (st : ManagerState) (eid name : String) (t : Nat) :
    ((record_check_out st eid name t).2).ledger.map
        (fun r => (r.employeeId, r.name, r.checkIn, r.status)) =
      st.ledger.map (fun r => (r.employeeId, r.name, r.checkIn, r.status)) := by
  unfold record_check_out
  cases hl : lookupC eid st.cache with
  | none => rfl
  | some entry =>
    cases hf : st.ledger.find? (isOpenFor eid) with
    | none => rfl
    | some firstRow =>
      simp only [List.map_map]
      apply List.map_congr_left
      intro a ha
      by_cases h : isOpenFor eid a = true
      · simp [closeRow_of_open eid t _ a h]
      · simp [closeRow_of_not_open eid t _ a h]

/-- C10: a successful `record_check_out` removes the employee from the
checked-in cache, so a subsequent `record_check_in` for the same
employee on the same day succeeds and appends a fresh open record to the
ledger (duplicate rejection only applies while an open record exists). -/
theorem recheck_in_after_check_out (cfg : Config) (st : ManagerState)
    (eid name : String) (t : Nat) (name2 : String) (t2 : Nat)
    (res : CheckOutResult) (st2 : ManagerState)
    (h : record_check_out st eid name t = (res, st2))
    (hres : res.isSuccess = true) :
    record_check_in cfg st2 eid name2 t2 =
      (.ok eid name2 t2 (getStatus cfg t2)
          (checkInComments cfg (getStatus cfg t2)),
        ⟨st2.ledger ++ [⟨eid, name2, t2, none, getStatus cfg t2,
            checkInComments cfg (getStatus cfg t2)⟩],
          (eid, ⟨name2, t2⟩) :: st2.cache⟩) ∧
    isOpenFor eid ⟨eid, name2, t2, none, getStatus cfg t2,
        checkInComments cfg (getStatus cfg t2)⟩ = true := by
  have hcache : st2.cache = popC eid st.cache := by
    unfold record_check_out at h
    cases hl : lookupC eid st.cache with
    | none =>
      rw [hl] at h
      cases h
      simp [CheckOutResult.isSuccess] at hres
    | some entry =>
      rw [hl] at h
      cases hf : st.ledger.find? (isOpenFor eid) with
      | none =>
        rw [hf] at h
        cases h
        simp [CheckOutResult.isSuccess] at hres
      | some firstRow =>
        rw [hf] at h
        cases h
        rfl
  have hnone : lookupC eid st2.cache = none := by
    rw [hcache, lookupC_popC, if_pos rfl]
  constructor
  · unfold record_check_in
    rw [hnone]
  · simp [isOpenFor]

/-- Witness for `recheck_in_after_check_out`: check in, check out, then
check in again on the same day; the second check-in succeeds and appends
a second (open) record for the same employee. -/
theorem recheck_in_after_check_out_witness :
    (record_check_out (run defaultConfig initState
        [Op.checkIn "E1" "Alice" 32400]) "E1" "Alice" 61200 =
      ((record_check_out (run defaultConfig initState
          [Op.checkIn "E1" "Alice" 32400]) "E1" "Alice" 61200).1,
        (record_check_out (run defaultConfig initState
          [Op.checkIn "E1" "Alice" 32400]) "E1" "Alice" 61200).2)) ∧
    ((record_check_out (run defaultConfig initState
        [Op.checkIn "E1" "Alice" 32400]) "E1" "Alice" 61200).1).isSuccess
      = true ∧
    (record_check_in defaultConfig
        ((record_check_out (run defaultConfig initState
          [Op.checkIn "E1" "Alice" 32400]) "E1" "Alice" 61200).2)
        "E1" "Alice" 64800 =
      (.ok "E1" "Alice" 64800 (getStatus defaultConfig 64800)
          (checkInComments defaultConfig (getStatus defaultConfig 64800)),
        ⟨((record_check_out (run defaultConfig initState
            [Op.checkIn "E1" "Alice" 32400]) "E1" "Alice" 61200).2).ledger
            ++ [⟨"E1", "Alice", 64800, none, getStatus defaultConfig 64800,
              checkInComments defaultConfig (getStatus defaultConfig 64800)⟩],
          ("E1", ⟨"Alice", 64800⟩) ::
            ((record_check_out (run defaultConfig initState
              [Op.checkIn "E1" "Alice" 32400]) "E1" "Alice" 61200).2).cache⟩)
      ∧ isOpenFor "E1" ⟨"E1", "Alice", 64800, none,
          getStatus defaultConfig 64800,
          checkInComments defaultConfig (getStatus defaultConfig 64800)⟩
        = true) :=
  ⟨rfl, by decide,
    recheck_in_after_check_out defaultConfig
      (run defaultConfig initState [Op.checkIn "E1" "Alice" 32400])
      "E1" "Alice" 61200 "Alice" 64800 _ _ rfl (by decide)⟩

/-- Counterexample to C6 as stated: with two open records for `E1` in
the ledger, `record_check_out` sets the check-out time on BOTH rows
(the pandas mask assignment `df.loc[mask, 'Check-out Time'] = time_str`
hits every open row), not only on the first one; only the duration is
taken from the first row. -/
theorem check_out_closes_all_cex :
    ((record_check_out
        ⟨[⟨"E1", "A", 100, none, "On Time", ""⟩,
          ⟨"E1", "A", 200, none, "On Time", ""⟩],
          [("E1", ⟨"A", 100⟩)]⟩ "E1" "A" 300).2).ledger.map Record.checkOut
        = [some 300, some 300] ∧
    ¬ ((record_check_out
        ⟨[⟨"E1", "A", 100, none, "On Time", ""⟩,
          ⟨"E1", "A", 200, none, "On Time", ""⟩],
          [("E1", ⟨"A", 100⟩)]⟩ "E1" "A" 300).2).ledger.map
        Record.checkOut = [some 300, none] := by decide

/-- C6 (amended): when the cache lists the employee and the ledger holds
one or more open records for them, `record_check_out` succeeds without
crashing, computes the duration from the FIRST open record encountered
in ledger order (`find?`), and closes EVERY open record of that
employee (all receive the same check-out time), so none remains open. -/
theorem check_out_first_open_record (st : ManagerState)
    (eid name : String) (t : Nat) (firstRow : Record)
    (hc : (lookupC eid st.cache).isSome = true)
    (hf : st.ledger.find? (isOpenFor eid) = some firstRow) :
    (record_check_out st eid name t).1 =
      .ok eid name t (computeDuration firstRow.checkIn t) ∧
    ∀ r2 ∈ ((record_check_out st eid name t).2).ledger,
      ¬ isOpenFor eid r2 = true := by
  unfold record_check_out
  cases hl : lookupC eid st.cache with
  | none =>
    rw [hl] at hc
    simp at hc
  | some entry =>
    rw [hf]
    refine ⟨rfl, ?_⟩
    have h0 := openCount_closeRow_self eid t
      (checkOutComments firstRow.comments
        (computeDuration firstRow.checkIn t).toNat) st.ledger
    rw [openCount_eq_zero_iff] at h0
    exact h0

/-- Witness for `check_out_first_open_record`: two open records for
`E1`; the duration is computed from the first (check-in 100), and no
open record for `E1` remains after the call. -/
theorem check_out_first_open_record_witness :
    ((lookupC "E1" [("E1", (⟨"A", 100⟩ : CacheEntry))]).isSome = true) ∧
    (([⟨"E1", "A", 100, none, "On Time", ""⟩,
        ⟨"E1", "A", 200, none, "On Time", ""⟩] :
        List Record).find? (isOpenFor "E1") =
      some ⟨"E1", "A", 100, none, "On Time", ""⟩) ∧
    ((record_check_out
        ⟨[⟨"E1", "A", 100, none, "On Time", ""⟩,
          ⟨"E1", "A", 200, none, "On Time", ""⟩],
          [("E1", ⟨"A", 100⟩)]⟩ "E1" "A" 300).1 =
      .ok "E1" "A" 300
        (computeDuration
          (Record.checkIn ⟨"E1", "A", 100, none, "On Time", ""⟩) 300) ∧
    ∀ r2 ∈ ((record_check_out
        ⟨[⟨"E1", "A", 100, none, "On Time", ""⟩,
          ⟨"E1", "A", 200, none, "On Time", ""⟩],
          [("E1", ⟨"A", 100⟩)]⟩ "E1" "A" 300).2).ledger,
      ¬ isOpenFor "E1" r2 = true) :=
  ⟨by decide, by decide,
    check_out_first_open_record
      ⟨[⟨"E1", "A", 100, none, "On Time", ""⟩,
        ⟨"E1", "A", 200, none, "On Time", ""⟩],
        [("E1", ⟨"A", 100⟩)]⟩ "E1" "A" 300
      ⟨"E1", "A", 100, none, "On Time", ""⟩ (by decide) (by decide)⟩

/-!
## Report aggregator (`generate_monthly_report`, lines 217-291)

The per-day CSV files of the month are a partial map from date string to
row list (`List (String × List Record)`, a missing key being a missing
file, which the loop skips).  `all_employees` is an insertion-ordered
dict from employee id to `{'Name': name}` plus one status per date.
-/

/-- Generic Python dict lookup on an association list. -/
def lookupA {α : Type} (k : String) : List (String × α) → Option α
  | [] => none
  | p :: rest => if p.1 = k then some p.2 else lookupA k rest

/-- Python dict assignment `d[k] = v`: update the binding in place, or
append a new one at the end. -/
def setD {α : Type} (k : String) (v : α) :
    List (String × α) → List (String × α)
  | [] => [(k, v)]
  | p :: rest => if p.1 = k then (k, v) :: rest else p :: setD k v rest

/-- Python `datetime` leap-year rule (proleptic Gregorian). -/
def isLeap (y : Nat) : Bool :=
  (y % 4 == 0 && y % 100 != 0) || y % 400 == 0

/-- Length of the month as computed on lines 234-242 (first day of the
next month minus one day). -/
def daysInMonth (y m : Nat) : Nat :=
  if m = 2 then (if isLeap y then 29 else 28)
  else if m = 4 ∨ m = 6 ∨ m = 9 ∨ m = 11 then 30
  else 31

/-- `strftime('%Y-%m-%d')`. -/
def dateStr (y m d : Nat) : String :=
  toString y ++ "-" ++ pad2 m ++ "-" ++ pad2 d

/-- `dates_in_month` (lines 246-247): every calendar date of the month
in order. -/
def monthDates (y m : Nat) : List String :=
  (List.range (daysInMonth y m)).map (fun i => dateStr y m (i + 1))

/-- The per-employee value in `all_employees`: the first-seen `Name` and
the per-date status dict. -/
structure EmpData where
  name : String
  statuses : List (String × String)
deriving Repr, DecidableEq

/-- The inner status dict right after registration (lines 263-267):
every date of the month initialized to `'Absent'`. -/
def initStatuses (dates : List String) : List (String × String) :=
  dates.map (fun d => (d, "Absent"))

/-- `all_employees[employee_id][date_str] = status` on the outer dict
(the entry is present whenever the code executes this line). -/
def updE (eid d s : String) :
    List (String × EmpData) → List (String × EmpData)
  | [] => []
  | p :: rest =>
    if p.1 = eid then (p.1, ⟨p.2.name, setD d s p.2.statuses⟩) :: rest
    else p :: updE eid d s rest

/-- The body of the row loop (lines 258-270): register the employee on
first sight (first-seen name, all dates `'Absent'`), then set the status
for this date. -/
def processRow (dates : List String) (acc : List (String × EmpData))
    (date : String) (r : Record) : List (String × EmpData) :=
  let acc2 := match lookupA r.employeeId acc with
    | some _ => acc
    | none => acc ++ [(r.employeeId, ⟨r.name, initStatuses dates⟩)]
  updE r.employeeId date r.status acc2

/-- The day loop (lines 250-270): build `all_employees` by scanning the
month's existing per-day files in date order. -/
def collectMonth (dates : List String)
    (files : List (String × List Record)) : List (String × EmpData) :=
  dates.foldl (fun acc d =>
    match lookupA d files with
    | none => acc
    | some recs => recs.foldl (fun a r => processRow dates a d r) acc) []

/-- One emitted report row (lines 277-282): employee id, display name,
and one `(date, status)` cell per date of the month, defaulting to
`'Absent'`. -/
structure ReportRow where
  employeeId : String
  name : String
  cells : List (String × String)
deriving Repr, DecidableEq

/-- `row = {'Employee ID': ..., 'Name': ...}` plus
`row[date_str] = data.get(date_str, 'Absent')`. -/
def rowOf (dates : List String) (p : String × EmpData) : ReportRow :=
  ⟨p.1, p.2.name,
    dates.map (fun d => (d, (lookupA d p.2.statuses).getD "Absent"))⟩

/-- The report rows for an explicit date-column list. -/
def reportRows (dates : List String)
    (files : List (String × List Record)) : List ReportRow :=
  (collectMonth dates files).map (rowOf dates)

/-- `generate_monthly_report(year, month)` restricted to its data
content: the emitted rows of the saved CSV. -/
def generateMonthlyReport (y m : Nat)
    (files : List (String × List Record)) : List ReportRow :=
  reportRows (monthDates y m) files

/-- The `(date, record)` pairs contributed by one day, in row order. -/
def dayPairs (files : List (String × List Record)) (d : String) :
    List (String × Record) :=
  match lookupA d files with
  | none => []
  | some recs => recs.map (fun r => (d, r))

/-- All `(date, record)` pairs of the month in processing order. -/
def monthPairs (dates : List String)
    (files : List (String × List Record)) : List (String × Record) :=
  dates.foldr (fun d acc => dayPairs files d ++ acc) []

/-- The pairs that mention one employee, in processing order. -/
def pairsFor (eid : String) (ps : List (String × Record)) :
    List (String × Record) :=
  ps.filter (fun p => (p.2.employeeId = eid : Bool))

/-- Status of the LAST record of a given date in a pair list. -/
def lastStatus (d : String) : List (String × Record) → Option String
  | [] => none
  | p :: ps =>
    match lastStatus d ps with
    | some s => some s
    | none => if p.1 = d then some p.2.status else none

/-- The effect of `all_employees[eid][d] = s` on one entry. -/
def updData (d s : String) (e : EmpData) : EmpData :=
  ⟨e.name, setD d s e.statuses⟩

/-- Replay a pair list onto one employee's entry. -/
def applyAll (ps : List (String × Record)) (e : EmpData) : EmpData :=
  ps.foldl (fun acc p => updData p.1 p.2.status acc) e

/-- Replay a pair list onto one employee's (possibly absent) entry,
registering the employee at the first pair. -/
def applyPairs (dates : List String) :
    List (String × Record) → Option EmpData → Option EmpData
  | [], o => o
  | p :: ps, o =>
    applyPairs dates ps
      (some (updData p.1 p.2.status (o.getD ⟨p.2.name, initStatuses dates⟩)))

theorem lookupA_setD_self {α : Type} (d : String) (v : α)
    (l : List (String × α)) : lookupA d (setD d v l) = some v := by
  induction l with
  | nil => simp [setD, lookupA]
  | cons p rest ih =>
    by_cases hp : p.1 = d
    · simp [setD, hp, lookupA]
    · simp [setD, hp, lookupA, ih]

theorem lookupA_setD_other {α : Type} (k d : String) (v : α)
    (l : List (String × α)) (h : k ≠ d) :
    lookupA k (setD d v l) = lookupA k l := by
  induction l with
  | nil => simp [setD, lookupA, Ne.symm h]
  | cons p rest ih =>
    by_cases hp : p.1 = d
    · simp [setD, hp, lookupA, Ne.symm h, hp ▸ (Ne.symm h)]
    · simp only [setD, hp, if_false, lookupA, ih]

theorem lookupA_append_single {α : Type} (k k2 : String) (v : α)
    (l : List (String × α)) :
    lookupA k (l ++ [(k2, v)]) =
      match lookupA k l with
      | some x => some x
      | none => if k2 = k then some v else none := by
  induction l with
  | nil => simp [lookupA]
  | cons p rest ih =>
    by_cases hp : p.1 = k
    · simp [lookupA, hp]
    · simp only [List.cons_append, lookupA, hp, if_false]
      rw [show rest.append [(k2, v)] = rest ++ [(k2, v)] from rfl, ih]

theorem lookupA_updE_self (eid d s : String)
    (l : List (String × EmpData)) :
    lookupA eid (updE eid d s l) = (lookupA eid l).map (updData d s) := by
  induction l with
  | nil => simp [updE, lookupA]
  | cons p rest ih =>
    by_cases hp : p.1 = eid
    · simp [updE, hp, lookupA, updData]
    · simp only [updE, hp, if_false, lookupA, ih]

theorem lookupA_updE_other (k eid d s : String)
    (l : List (String × EmpData)) (h : k ≠ eid) :
    lookupA k (updE eid d s l) = lookupA k l := by
  induction l with
  | nil => simp [updE]
  | cons p rest ih =>
    by_cases hp : p.1 = eid
    · have hk : ¬ p.1 = k := fun hh => h (hh ▸ hp)
      simp [updE, hp, lookupA, hk, Ne.symm h]
    · simp only [updE, hp, if_false, lookupA, ih]

theorem processRow_lookup (dates : List String)
    (acc : List (String × EmpData)) (d : String) (r : Record)
    (eid : String) :
    lookupA eid (processRow dates acc d r) =
      if r.employeeId = eid then
        some (updData d r.status
          ((lookupA eid acc).getD ⟨r.name, initStatuses dates⟩))
      else lookupA eid acc := by
  unfold processRow
  rcases eq_or_ne r.employeeId eid with heq | hne
  · rw [if_pos heq, heq]
    cases hl : lookupA eid acc with
    | some e =>
      simp only [hl, lookupA_updE_self, Option.map_some, Option.getD_some]
      rfl
    | none =>
      simp only [hl, lookupA_updE_self, lookupA_append_single, hl,
        if_pos rfl, Option.map_some, Option.getD_none]
      rfl
  · rw [if_neg hne, lookupA_updE_other eid r.employeeId d r.status _
      (Ne.symm hne)]
    cases hl : lookupA r.employeeId acc with
    | some e => rfl
    | none =>
      simp only [lookupA_append_single, hl]
      rw [if_neg hne]
      cases lookupA eid acc <;> rfl

theorem pairsFor_cons (eid : String) (p : String × Record)
    (ps : List (String × Record)) :
    pairsFor eid (p :: ps) =
      if p.2.employeeId = eid then p :: pairsFor eid ps
      else pairsFor eid ps := by
  simp only [pairsFor, List.filter_cons]
  by_cases hp : p.2.employeeId = eid <;> simp [hp]

theorem foldl_processRow_lookup (dates : List String) (eid : String)
    (ps : List (String × Record)) :
    ∀ acc : List (String × EmpData),
      lookupA eid (ps.foldl (fun a p => processRow dates a p.1 p.2) acc) =
        applyPairs dates (pairsFor eid ps) (lookupA eid acc) := by
  induction ps with
  | nil => intro acc; rfl
  | cons p ps ih =>
    intro acc
    rw [List.foldl_cons, ih, processRow_lookup, pairsFor_cons]
    by_cases hp : p.2.employeeId = eid
    · rw [if_pos hp, if_pos hp, applyPairs]
    · rw [if_neg hp, if_neg hp]

theorem collectMonth_eq_foldl (dates : List String)
    (files : List (String × List Record)) :
    collectMonth dates files =
      (monthPairs dates files).foldl
        (fun a p => processRow dates a p.1 p.2) [] := by
  unfold collectMonth
  suffices h : ∀ ds (acc : List (String × EmpData)),
      ds.foldl (fun acc d =>
        match lookupA d files with
        | none => acc
        | some recs => recs.foldl (fun a r => processRow dates a d r) acc)
        acc =
      (monthPairs ds files).foldl (fun a p => processRow dates a p.1 p.2)
        acc from h dates []
  intro ds
  induction ds with
  | nil => intro acc; rfl
  | cons d ds ih =>
    intro acc
    have hday : (match lookupA d files with
        | none => acc
        | some recs => recs.foldl (fun a r => processRow dates a d r) acc) =
        (dayPairs files d).foldl (fun a p => processRow dates a p.1 p.2)
          acc := by
      unfold dayPairs
      cases lookupA d files with
      | none => rfl
      | some recs => rw [List.foldl_map]
    rw [List.foldl_cons, ih, hday]
    show _ = ((dayPairs files d ++ monthPairs ds files).foldl _ acc)
    rw [List.foldl_append]

theorem applyPairs_some (dates : List String) (ps : List (String × Record)) :
    ∀ e : EmpData, applyPairs dates ps (some e) = some (applyAll ps e) := by
  induction ps with
  | nil => intro e; rfl
  | cons p ps ih =>
    intro e
    rw [applyPairs, applyAll, List.foldl_cons]
    exact ih (updData p.1 p.2.status e)

theorem applyAll_name (ps : List (String × Record)) :
    ∀ e : EmpData, (applyAll ps e).name = e.name := by
  induction ps with
  | nil => intro e; rfl
  | cons p ps ih =>
    intro e
    rw [applyAll, List.foldl_cons]
    exact ih (updData p.1 p.2.status e)

theorem applyAll_statuses (d : String) (ps : List (String × Record)) :
    ∀ e : EmpData,
      lookupA d (applyAll ps e).statuses =
        match lastStatus d ps with
        | some s => some s
        | none => lookupA d e.statuses := by
  induction ps with
  | nil => intro e; rfl
  | cons p ps ih =>
    intro e
    rw [applyAll, List.foldl_cons]
    show lookupA d (applyAll ps (updData p.1 p.2.status e)).statuses = _
    rw [ih (updData p.1 p.2.status e), lastStatus]
    cases hs : lastStatus d ps with
    | some s => rfl
    | none =>
      simp only [updData]
      by_cases hp : p.1 = d
      · rw [if_pos hp, hp, lookupA_setD_self]
      · rw [if_neg hp,
          lookupA_setD_other d p.1 p.2.status e.statuses
            (fun hh => hp hh.symm)]

theorem lookupA_map_self {α : Type} (d : String) (f : String → α)
    (dates : List String) (h : d ∈ dates) :
    lookupA d (dates.map (fun x => (x, f x))) = some (f d) := by
  induction dates with
  | nil => cases h
  | cons x ds ih =>
    rcases List.mem_cons.1 h with rfl | hd
    · simp [lookupA]
    · by_cases hx : x = d
      · simp [lookupA, hx]
      · simp only [List.map_cons, lookupA, hx, if_false]
        exact ih hd

theorem lookupA_mem {α : Type} (k : String) (v : α) :
    ∀ l : List (String × α), lookupA k l = some v → (k, v) ∈ l := by
  intro l
  induction l with
  | nil => intro h; cases h
  | cons p rest ih =>
    intro h
    rw [show lookupA k (p :: rest) =
      (if p.1 = k then some p.2 else lookupA k rest) from rfl] at h
    by_cases hp : p.1 = k
    · rw [if_pos hp] at h
      cases h
      rw [← hp]
      exact List.mem_cons_self p rest
    · rw [if_neg hp] at h
      exact List.mem_cons_of_mem p (ih h)

theorem lastStatus_of_filter_nil (d : String) :
    ∀ l : List (String × Record),
      l.filter (fun p => (p.1 = d : Bool)) = [] → lastStatus d l = none := by
  intro l
  induction l with
  | nil => intro _; rfl
  | cons p ps ih =>
    intro h
    rw [List.filter_cons] at h
    by_cases hp : p.1 = d
    · rw [if_pos (by simp [hp])] at h
      exact absurd h (List.cons_ne_nil _ _)
    · rw [if_neg (by simp [hp])] at h
      rw [lastStatus, ih h, if_neg hp]

theorem lastStatus_of_filter_single (d : String) (q : String × Record) :
    ∀ l : List (String × Record),
      l.filter (fun p => (p.1 = d : Bool)) = [q] →
        lastStatus d l = some q.2.status := by
  intro l
  induction l with
  | nil => intro h; cases h
  | cons p ps ih =>
    intro h
    rw [List.filter_cons] at h
    by_cases hp : p.1 = d
    · rw [if_pos (by simp [hp])] at h
      injection h with h1 h2
      rw [lastStatus, lastStatus_of_filter_nil d ps h2]
      show (if p.1 = d then some p.2.status else none) = some q.2.status
      rw [if_pos hp, h1]
    · rw [if_neg (by simp [hp])] at h
      rw [lastStatus, ih h]

theorem applyAll_cell (dates : List String) (qs : List (String × Record))
    (q0 : String × Record) (d : String) (hd : d ∈ dates) :
    (lookupA d (applyAll qs (updData q0.1 q0.2.status
        ⟨q0.2.name, initStatuses dates⟩)).statuses).getD "Absent" =
      match lastStatus d (q0 :: qs) with
      | some s => s
      | none => "Absent" := by
  rw [applyAll_statuses d qs, lastStatus]
  cases hs : lastStatus d qs with
  | some s => rfl
  | none =>
    have hst : (updData q0.1 q0.2.status
        ⟨q0.2.name, initStatuses dates⟩).statuses =
        setD q0.1 q0.2.status (initStatuses dates) := rfl
    rw [hst]
    by_cases hq : q0.1 = d
    · rw [if_pos hq, hq, lookupA_setD_self]
      rfl
    · rw [if_neg hq,
        lookupA_setD_other d q0.1 q0.2.status (initStatuses dates)
          (fun hh => hq hh.symm)]
      have hinit : lookupA d (initStatuses dates) = some "Absent" := by
        have h2 := lookupA_map_self d (fun _ => "Absent") dates hd
        simpa [initStatuses] using h2
      rw [hinit]
      rfl

/-- C7: in the monthly report, every employee appearing in at least one
of the month's ledgers gets a row whose display name is the name on the
FIRST record seen for them (in date order, then file row order), whose
cell for a date carrying exactly one record for them is that record's
status (in general: the status of the last such record processed), and
whose cell for every other date of the month is `Absent`. -/
theorem monthly_report_row (y m : Nat)
    (files : List (String × List Record)) (eid : String)
    (q0 : String × Record) (qs : List (String × Record))
    (hp : pairsFor eid (monthPairs (monthDates y m) files) = q0 :: qs) :
    ∃ e : EmpData,
      lookupA eid (collectMonth (monthDates y m) files) = some e ∧
      rowOf (monthDates y m) (eid, e) ∈ generateMonthlyReport y m files ∧
      (rowOf (monthDates y m) (eid, e)).employeeId = eid ∧
      (rowOf (monthDates y m) (eid, e)).name = q0.2.name ∧
      (∀ d ∈ monthDates y m,
        lookupA d (rowOf (monthDates y m) (eid, e)).cells =
          some (match lastStatus d (q0 :: qs) with
            | some s => s
            | none => "Absent")) ∧
      (∀ d ∈ monthDates y m,
        (q0 :: qs).filter (fun p => (p.1 = d : Bool)) = [] →
          lookupA d (rowOf (monthDates y m) (eid, e)).cells =
            some "Absent") ∧
      (∀ d ∈ monthDates y m, ∀ q : String × Record,
        (q0 :: qs).filter (fun p => (p.1 = d : Bool)) = [q] →
          lookupA d (rowOf (monthDates y m) (eid, e)).cells =
            some q.2.status) := by
  have hlook : lookupA eid (collectMonth (monthDates y m) files) =
      some (applyAll qs (updData q0.1 q0.2.status
        ⟨q0.2.name, initStatuses (monthDates y m)⟩)) := by
    rw [collectMonth_eq_foldl (monthDates y m) files,
      foldl_processRow_lookup (monthDates y m) eid
        (monthPairs (monthDates y m) files) [], hp]
    show applyPairs (monthDates y m) (q0 :: qs) none = _
    rw [applyPairs]
    exact applyPairs_some (monthDates y m) qs _
  refine ⟨applyAll qs (updData q0.1 q0.2.status
    ⟨q0.2.name, initStatuses (monthDates y m)⟩), hlook, ?_, rfl, ?_, ?_,
    ?_, ?_⟩
  · exact List.mem_map_of_mem (rowOf (monthDates y m))
      (lookupA_mem eid _ _ hlook)
  · show (applyAll qs (updData q0.1 q0.2.status
      ⟨q0.2.name, initStatuses (monthDates y m)⟩)).name = q0.2.name
    rw [applyAll_name]
    rfl
  · intro d hd
    have hmap := lookupA_map_self d
      (fun x => (lookupA x (applyAll qs (updData q0.1 q0.2.status
        ⟨q0.2.name, initStatuses (monthDates y m)⟩)).statuses).getD "Absent")
      (monthDates y m) hd
    have hrow : lookupA d (rowOf (monthDates y m) (eid,
        applyAll qs (updData q0.1 q0.2.status
          ⟨q0.2.name, initStatuses (monthDates y m)⟩))).cells =
        some ((lookupA d (applyAll qs (updData q0.1 q0.2.status
          ⟨q0.2.name, initStatuses (monthDates y m)⟩)).statuses).getD
            "Absent") := hmap
    rw [hrow, applyAll_cell (monthDates y m) qs q0 d hd]
  · intro d hd hfil
    have hmap := lookupA_map_self d
      (fun x => (lookupA x (applyAll qs (updData q0.1 q0.2.status
        ⟨q0.2.name, initStatuses (monthDates y m)⟩)).statuses).getD "Absent")
      (monthDates y m) hd
    have hrow : lookupA d (rowOf (monthDates y m) (eid,
        applyAll qs (updData q0.1 q0.2.status
          ⟨q0.2.name, initStatuses (monthDates y m)⟩))).cells =
        some ((lookupA d (applyAll qs (updData q0.1 q0.2.status
          ⟨q0.2.name, initStatuses (monthDates y m)⟩)).statuses).getD
            "Absent") := hmap
    rw [hrow, applyAll_cell (monthDates y m) qs q0 d hd,
      lastStatus_of_filter_nil d (q0 :: qs) hfil]
  · intro d hd q hfil
    have hmap := lookupA_map_self d
      (fun x => (lookupA x (applyAll qs (updData q0.1 q0.2.status
        ⟨q0.2.name, initStatuses (monthDates y m)⟩)).statuses).getD "Absent")
      (monthDates y m) hd
    have hrow : lookupA d (rowOf (monthDates y m) (eid,
        applyAll qs (updData q0.1 q0.2.status
          ⟨q0.2.name, initStatuses (monthDates y m)⟩))).cells =
        some ((lookupA d (applyAll qs (updData q0.1 q0.2.status
          ⟨q0.2.name, initStatuses (monthDates y m)⟩)).statuses).getD
            "Absent") := hmap
    rw [hrow, applyAll_cell (monthDates y m) qs q0 d hd,
      lastStatus_of_filter_single d q (q0 :: qs) hfil]

/-- Day-1 record of the report example: `E1` on time, checked out. -/
def rec1 : Record :=
  ⟨"E1", "Alice", 32400, some 61200, "On Time", "Work duration: 8:00:00"⟩

/-- Day-3 record of the report example: `E1` late, still open. -/
def rec3 : Record :=
  ⟨"E1", "Alice", 33600, none, "Late", "Late by more than 10 minutes"⟩

/-- Ledger files for January 2025: day 1 and day 3 exist, day 2 has no
file. -/
def janFiles : List (String × List Record) :=
  [("2025-01-01", [rec1]), ("2025-01-03", [rec3])]

/-- Witness for `monthly_report_row`: the spec's concrete scenario —
ledgers on days 1 and 3 of a month with statuses `On Time` and `Late`,
nothing on day 2 — yields the single row `E1, Alice` reading
`On Time, Absent, Late` on days 1-3. -/
theorem monthly_report_row_witness :
    pairsFor "E1" (monthPairs (monthDates 2025 1) janFiles) =
      ("2025-01-01", rec1) :: [("2025-01-03", rec3)] ∧
    (∃ e : EmpData,
      lookupA "E1" (collectMonth (monthDates 2025 1) janFiles) = some e ∧
      rowOf (monthDates 2025 1) ("E1", e) ∈
        generateMonthlyReport 2025 1 janFiles ∧
      (rowOf (monthDates 2025 1) ("E1", e)).employeeId = "E1" ∧
      (rowOf (monthDates 2025 1) ("E1", e)).name = "Alice" ∧
      (∀ d ∈ monthDates 2025 1,
        lookupA d (rowOf (monthDates 2025 1) ("E1", e)).cells =
          some (match lastStatus d
              (("2025-01-01", rec1) :: [("2025-01-03", rec3)]) with
            | some s => s
            | none => "Absent")) ∧
      (∀ d ∈ monthDates 2025 1,
        (("2025-01-01", rec1) :: [("2025-01-03", rec3)]).filter
            (fun p => (p.1 = d : Bool)) = [] →
          lookupA d (rowOf (monthDates 2025 1) ("E1", e)).cells =
            some "Absent") ∧
      (∀ d ∈ monthDates 2025 1, ∀ q : String × Record,
        (("2025-01-01", rec1) :: [("2025-01-03", rec3)]).filter
            (fun p => (p.1 = d : Bool)) = [q] →
          lookupA d (rowOf (monthDates 2025 1) ("E1", e)).cells =
            some q.2.status)) ∧
    (generateMonthlyReport 2025 1 janFiles).map
      (fun r => (r.employeeId, r.name)) = [("E1", "Alice")] ∧
    (generateMonthlyReport 2025 1 janFiles).map
      (fun r => lookupA "2025-01-01" r.cells) = [some "On Time"] ∧
    (generateMonthlyReport 2025 1 janFiles).map
      (fun r => lookupA "2025-01-02" r.cells) = [some "Absent"] ∧
    (generateMonthlyReport 2025 1 janFiles).map
      (fun r => lookupA "2025-01-03" r.cells) = [some "Late"] :=
  ⟨by decide,
    monthly_report_row 2025 1 janFiles "E1" ("2025-01-01", rec1)
      [("2025-01-03", rec3)] (by decide),
    by decide, by decide, by decide, by decide⟩

/-!
## Day-boundary behaviour (`__init__`, lines 12-34)

`self.today`, `self.today_str`, `self.today_file` and the
`checked_in_employees` cache are computed ONCE, in the constructor, from
`datetime.now(vietnam_tz)`; `record_check_in` / `record_check_out` never
recompute them.  To examine behaviour across midnight we model the whole
records directory (`store`: date string → file rows) and keep the
construction-time date in the state.
-/

/-- A manager together with the records directory. -/
structure FullState where
  todayStr : String
  store : List (String × List Record)
  cache : List (String × CacheEntry)
deriving Repr, DecidableEq

/-- Python dict assignment for the cache (later open rows overwrite
earlier ones in `_get_checked_in_employees`). -/
def setC (eid : String) (v : CacheEntry) :
    List (String × CacheEntry) → List (String × CacheEntry)
  | [] => [(eid, v)]
  | p :: rest => if p.1 = eid then (eid, v) :: rest else p :: setC eid v rest

/-- `_get_checked_in_employees` (lines 43-60): employees of today's file
with check-in set and check-out empty. -/
def buildCache (rows : List Record) : List (String × CacheEntry) :=
  rows.foldl (fun c r =>
    if r.checkOut.isNone then setC r.employeeId ⟨r.name, r.checkIn⟩ c
    else c) []

/-- Append rows to one day's file in the records directory. -/
def updateStore (d : String) (f : List Record → List Record) :
    List (String × List Record) → List (String × List Record)
  | [] => []
  | p :: rest => if p.1 = d then (p.1, f p.2) :: rest else p :: updateStore d f rest

/-- `AttendanceManager.__init__` run when the wall clock date (in the
reference timezone) reads `nowDate`: fix `today_str`, create today's
file if absent (`_initialize_daily_file`), build the checked-in cache
from it. -/
def managerInit (nowDate : String)
    (store : List (String × List Record)) : FullState :=
  let store2 :=
    if (lookupA nowDate store).isSome then store else store ++ [(nowDate, [])]
  ⟨nowDate, store2, buildCache ((lookupA nowDate store2).getD [])⟩

/-- `record_check_in` over the full records directory, called when the
wall clock reads date `nowDate`, time `nowSec`.  The source derives
`time_str` from `datetime.now()` but keeps writing to `self.today_file`
and consulting the constructor-time cache, so `nowDate` is never
consulted. -/
def full_record_check_in (cfg : Config) (m : FullState)
    (employeeId name : String) (nowDate : String) (nowSec : Nat) :
    CheckInResult × FullState :=
  match lookupC employeeId m.cache with
  | some entry => (.alreadyCheckedIn name entry.checkInTime, m)
  | none =>
    let status := getStatus cfg nowSec
    let comments := checkInComments cfg status
    let newRec : Record := ⟨employeeId, name, nowSec, none, status, comments⟩
    (.ok employeeId name nowSec status comments,
      ⟨m.todayStr,
        updateStore m.todayStr (fun rows => rows ++ [newRec]) m.store,
        (employeeId, ⟨name, nowSec⟩) :: m.cache⟩)

/-- C8 fails on the code (the spec's required behaviour, not the
implementation's): for a manager constructed on 2025-01-01, a
`record_check_in` performed at 09:00:00 on 2025-01-02 succeeds but is
appended to the 2025-01-01 ledger — no 2025-01-02 ledger even exists
afterwards — and with an open 2025-01-01 record the same call is
rejected from the stale cache.  The target day is resolved at
construction, not per call, so ledger and cache go stale across
midnight. -/
theorem check_in_written_to_stale_day :
    (full_record_check_in defaultConfig (managerInit "2025-01-01" [])
        "E1" "Alice" "2025-01-02" 32400).1 =
      .ok "E1" "Alice" 32400 "On Time" "" ∧
    ((full_record_check_in defaultConfig (managerInit "2025-01-01" [])
        "E1" "Alice" "2025-01-02" 32400).2).todayStr = "2025-01-01" ∧
    lookupA "2025-01-01"
      ((full_record_check_in defaultConfig (managerInit "2025-01-01" [])
        "E1" "Alice" "2025-01-02" 32400).2).store =
      some [⟨"E1", "Alice", 32400, none, "On Time", ""⟩] ∧
    lookupA "2025-01-02"
      ((full_record_check_in defaultConfig (managerInit "2025-01-01" [])
        "E1" "Alice" "2025-01-02" 32400).2).store = none ∧
    (full_record_check_in defaultConfig
        (managerInit "2025-01-01"
          [("2025-01-01", [⟨"E1", "Alice", 32400, none, "On Time", ""⟩])])
        "E1" "Alice" "2025-01-02" 33000).1 =
      .alreadyCheckedIn "Alice" 32400 := by decide
